import Mathlib

set_option maxHeartbeats 1000000

/-!
Verification development for the JurisFix correction pipeline (src/app.py).
Strings are embedded as `List Char`; the external completion service and the
external HTML parser are oracles passed as function parameters.
-/

/-- Python whitespace set used by `str.strip`, `str.split` and the regex class `\s`
(ASCII part). -/
def isSpaceChar (c : Char) : Bool :=
  c == ' ' || c == '\t' || c == '\n' || c == '\r' || c == '\x0b' || c == '\x0c'

/-- Accented Latin letters appearing in the name rule of `anonymiser_texte`
(src/app.py line 637), both cases. -/
def accentList : List Char :=
  ['é','è','ê','ë','à','â','ä','ô','ö','û','ü','ç','É','È','Ê','Ë','À','Â','Ä','Ô','Ö','Û','Ü','Ç']

/-- Python regex `\w`, restricted to ASCII alphanumerics, underscore and the accented
letters relevant to this code base. -/
def isWordChar (c : Char) : Bool := c.isAlphanum || c == '_' || accentList.contains c

/-- Word-character test on an optional character (out of string counts as non-word). -/
def isWordOpt : Option Char → Bool
  | none => false
  | some c => isWordChar c

/-- Python regex `\b`: true when exactly one of the two adjacent characters is a
word character. -/
def isBoundary (a b : Option Char) : Bool := isWordOpt a != isWordOpt b

/-- Python `str.strip()`: remove leading and trailing whitespace. -/
def pyStrip (s : List Char) : List Char :=
  ((s.dropWhile isSpaceChar).reverse.dropWhile isSpaceChar).reverse

/-- Helper for `pyTokens`: count maximal non-whitespace runs, tracking whether the
previous character was inside a run. -/
def pyTokensAux : Bool → List Char → Nat
  | _, [] => 0
  | inRun, c :: cs =>
    if isSpaceChar c then pyTokensAux false cs
    else (if inRun then 0 else 1) + pyTokensAux true cs

/-- Python `len(s.split())`: number of whitespace-delimited tokens. -/
def pyTokens (s : List Char) : Nat := pyTokensAux false s

/-- Whether `pat` is an initial segment of the second list. -/
def beginsWith : List Char → List Char → Bool
  | [], _ => true
  | _ :: _, [] => false
  | a :: as, b :: bs => a == b && beginsWith as bs

/-- Python `needle in hay` substring test. -/
def containsSub (needle : List Char) : List Char → Bool
  | [] => beginsWith needle []
  | c :: cs => beginsWith needle (c :: cs) || containsSub needle cs

/-- HTML-mode detection of `process_text` (src/app.py line 384):
`'<p>' in texte or '<div>' in texte`. -/
def isHtmlMode (texte : List Char) : Bool :=
  containsSub "<p>".data texte || containsSub "<div>".data texte

/-- Python `s.split('\n')` (keeps empty segments). -/
def splitNL : List Char → List (List Char)
  | [] => [[]]
  | c :: cs =>
    if c = '\n' then [] :: splitNL cs
    else
      match splitNL cs with
      | [] => [[c]]
      | h :: t => (c :: h) :: t

/-- Join block texts with a single newline between blocks. -/
def joinNL : List (List Char) → List Char
  | [] => []
  | [b] => b
  | b :: bs => b ++ '\n' :: joinNL bs

/-- Wrap one paragraph text in a paragraph element, `f'<p>{p}</p>'`
(src/app.py line 433). -/
def wrapPara (p : List Char) : List Char := "<p>".data ++ p ++ "</p>".data

/-- Paragraph elements produced by the HTML reassembly (src/app.py lines 432-433):
split on newline, discard segments that are blank after strip, wrap the rest. -/
def reassembleList (t : List Char) : List (List Char) :=
  ((splitNL t).filter (fun p => !(pyStrip p).isEmpty)).map wrapPara

/-- Reassembled HTML: the paragraph elements concatenated with no separator. -/
def reassembleHtml (t : List Char) : List Char := (reassembleList t).flatten

/-- Python `s.startswith(q) and s.endswith(q)` for a one-character `q`. -/
def startsEndsWith (q : Char) (s : List Char) : Bool :=
  match s with
  | [] => false
  | c :: cs => c == q && (cs.getLastD c) == q

/-- Python `s[1:-1]`. -/
def dropEnds (s : List Char) : List Char := (s.drop 1).dropLast

/-- Quote cleanup of `process_text` (src/app.py lines 424-427): two successive
independent conditionals, first on double quotes, then on single quotes. -/
def stripQuotes (s : List Char) : List Char :=
  let t := if startsEndsWith '"' s then dropEnds s else s
  if startsEndsWith '\'' t then dropEnds t else t

/-- Reply post-processing (src/app.py lines 421-427): strip whitespace then clean
unwanted quotes. -/
def postProcessReply (r : List Char) : List Char := stripQuotes (pyStrip r)

/-- Greedy maximal munch of one character class: consumed count and remaining input. -/
def munch (p : Char → Bool) : List Char → Nat × List Char
  | [] => (0, [])
  | c :: cs =>
    if p c then
      let r := munch p cs
      (r.1 + 1, r.2)
    else (0, c :: cs)

/-- Case-insensitive literal match (pattern given in lowercase): returns the
actually-consumed characters and the rest. -/
def matchCI : List Char → List Char → Option (List Char × List Char)
  | [], cs => some ([], cs)
  | _ :: _, [] => none
  | p :: ps, c :: cs =>
    if c.toLower == p then
      match matchCI ps cs with
      | some (m, r) => some (c :: m, r)
      | none => none
    else none

/-- Character class `[a-zéèêëàâäôöûüç]` under IGNORECASE: any ASCII letter or listed
accented letter. -/
def isNameTail (c : Char) : Bool := c.isAlpha || accentList.contains c

/-- One name word `[A-Z][a-zéèêëàâäôöûüç]+` under IGNORECASE: consumed length. -/
def matchNameWord : List Char → Option Nat
  | [] => none
  | c :: cs =>
    if c.isAlpha then
      let r := munch isNameTail cs
      if r.1 == 0 then none else some (r.1 + 1)
    else none

/-- The honorific alternatives of the name rule, in the source regex's order,
lowercased for case-insensitive comparison. -/
def honorifics : List (List Char) :=
  ["monsieur".data, "mr".data, "m.".data, "madame".data, "mme".data, "mlle".data]

/-- After a matched honorific: `\s+` then one or two capitalized name words
(the second greedy-optional). Returns the consumed length after the honorific. -/
def rule1Tail (rest : List Char) : Option Nat :=
  let sp := munch isSpaceChar rest
  if sp.1 == 0 then none
  else
    match matchNameWord sp.2 with
    | none => none
    | some n1 =>
      let rest3 := sp.2.drop n1
      let sp2 := munch isSpaceChar rest3
      let extra :=
        if sp2.1 == 0 then 0
        else
          match matchNameWord sp2.2 with
          | some n2 => sp2.1 + n2
          | none => 0
      some (sp.1 + n1 + extra)

/-- Try the honorific alternatives in order; on honorific-plus-tail success return
(match length, replacement `\1 [nom]`). -/
def rule1Alts : List (List Char) → List Char → Option (Nat × List Char)
  | [], _ => none
  | h :: hs, cs =>
    match matchCI h cs with
    | some (actual, rest) =>
      (match rule1Tail rest with
       | some n => some (actual.length + n, actual ++ (' ' :: "[nom]".data))
       | none => rule1Alts hs cs)
    | none => rule1Alts hs cs

/-- Name rule at one position (src/app.py lines 637-638):
`\b(Monsieur|Mr|M\.|Madame|Mme|Mlle)\s+([A-Z][a-z accents]+(?:\s+[A-Z][a-z accents]+)?)`
with IGNORECASE, replaced by `\1 [nom]`. Every honorific begins with a word
character, so the leading `\b` asks exactly that `prev` be non-word. -/
def rule1At (prev : Option Char) (cs : List Char) : Option (Nat × List Char) :=
  if isWordOpt prev then none else rule1Alts honorifics cs

/-- Email local-part class `[a-zA-Z0-9_.+-]`. -/
def isLocalChar (c : Char) : Bool := c.isAlphanum || c == '_' || c == '.' || c == '+' || c == '-'

/-- Email domain class `[a-zA-Z0-9-]`. -/
def isDomChar (c : Char) : Bool := c.isAlphanum || c == '-'

/-- Email suffix class `[a-zA-Z0-9-.]`. -/
def isTldChar (c : Char) : Bool := c.isAlphanum || c == '-' || c == '.'

/-- Largest j with 1 ≤ j ≤ given bound such that `\b` holds between `r[j-1]` and
`r[j]` (greedy quantifier backtracking for a trailing `\b`). -/
def findTrailB (r : List Char) : Nat → Option Nat
  | 0 => none
  | j + 1 =>
    if isBoundary r[j]? r[j+1]? then some (j + 1) else findTrailB r j

/-- Email rule at one position (src/app.py line 641):
`\b[a-zA-Z0-9_.+-]+@[a-zA-Z0-9-]+\.[a-zA-Z0-9-.]+\b`, replaced by `[email]`. -/
def rule2At (prev : Option Char) (cs : List Char) : Option (Nat × List Char) :=
  match cs with
  | [] => none
  | c :: _ =>
    if !isBoundary prev (some c) then none
    else
      let lo := munch isLocalChar cs
      if lo.1 == 0 then none
      else
        match lo.2 with
        | '@' :: r2 =>
          let dm := munch isDomChar r2
          if dm.1 == 0 then none
          else
            match dm.2 with
            | '.' :: r4 =>
              let tl := munch isTldChar r4
              match findTrailB r4 tl.1 with
              | some j => some (lo.1 + 1 + dm.1 + 1 + j, "[email]".data)
              | none => none
            | _ => none
        | _ => none

/-- Phone separator class `[\s.-]`. -/
def isSepChar (c : Char) : Bool := isSpaceChar c || c == '.' || c == '-'

/-- Two consecutive digits `\d{2}`. -/
def twoDigits : List Char → Option (List Char)
  | a :: b :: r => if a.isDigit && b.isDigit then some r else none
  | _ => none

/-- One phone group `[\s.-]?\d{2}`: consumed count and rest. Separator and digit
classes are disjoint, so the greedy optional needs no further backtracking. -/
def sepTwo (r : List Char) : Option (Nat × List Char) :=
  match r with
  | [] => none
  | c :: r' =>
    if isSepChar c then
      match twoDigits r' with
      | some rr => some (3, rr)
      | none => none
    else
      match twoDigits (c :: r') with
      | some rr => some (2, rr)
      | none => none

/-- Phone rule at one position (src/app.py line 644):
`\b0[1-9][\s.-]?\d{2}[\s.-]?\d{2}[\s.-]?\d{2}[\s.-]?\d{2}\b`, replaced by
`[téléphone]`. -/
def rule3At (prev : Option Char) (cs : List Char) : Option (Nat × List Char) :=
  if isWordOpt prev then none
  else
    match cs with
    | '0' :: c1 :: rest =>
      if c1.isDigit && c1 != '0' then
        match sepTwo rest with
        | none => none
        | some (n1, r1) =>
          match sepTwo r1 with
          | none => none
          | some (n2, r2) =>
            match sepTwo r2 with
            | none => none
            | some (n3, r3) =>
              match sepTwo r3 with
              | none => none
              | some (n4, r4) =>
                if isWordOpt r4.head? then none
                else some (2 + n1 + n2 + n3 + n4, "[téléphone]".data)
      else none
    | _ => none

/-- IBAN body class `[\w\s]`. -/
def isWS (c : Char) : Bool := isWordChar c || isSpaceChar c

/-- Backtracking for `[\w\s]{4,30}\b`: largest j ≤ bound with j ≥ 4 and `\b` after
the j-th consumed character. -/
def ibanBack (r : List Char) : Nat → Option Nat
  | 0 => none
  | j + 1 =>
    if j + 1 < 4 then none
    else if isBoundary r[j]? r[j+1]? then some (j + 1)
    else ibanBack r j

/-- Greedy `[\w\s]{4,30}\b` on r: consumed length. -/
def ibanBody (r : List Char) : Option Nat :=
  let m := munch isWS r
  ibanBack r (min m.1 30)

/-- IBAN rule at one position (src/app.py line 647):
`\b[A-Z]{2}\d{2}[\s]?[\w\s]{4,30}\b`, replaced by `[IBAN]`. The optional space is
greedy; if taking it makes the body fail, the space is retried as part of the body. -/
def rule4At (prev : Option Char) (cs : List Char) : Option (Nat × List Char) :=
  if isWordOpt prev then none
  else
    match cs with
    | a :: b :: c :: d :: rest =>
      if a.isUpper && b.isUpper && c.isDigit && d.isDigit then
        match rest with
        | [] => none
        | e :: rest' =>
          if isSpaceChar e then
            match ibanBody rest' with
            | some j => some (5 + j, "[IBAN]".data)
            | none =>
              match ibanBody rest with
              | some j => some (4 + j, "[IBAN]".data)
              | none => none
          else
            match ibanBody rest with
            | some j => some (4 + j, "[IBAN]".data)
            | none => none
      else none
    | _ => none

/-- `re.sub` scan: leftmost match, non-overlapping, continuing after each match;
`prev` is the original character just before the current position (for `\b`). A rule
returns (match length ≥ 1, replacement text). Structural recursion on a fuel value;
every match consumes at least one character, so fuel equal to the input length is
enough (and exhausted fuel leaves the text unchanged). -/
def subScanF (rule : Option Char → List Char → Option (Nat × List Char)) :
    Nat → Option Char → List Char → List Char
  | 0, _, cs => cs
  | _ + 1, _, [] => []
  | fuel + 1, prev, c :: rest =>
    match rule prev (c :: rest) with
    | some (n, repl) =>
      repl ++ subScanF rule fuel (((c :: rest).drop (n - 1)).head?) (rest.drop (n - 1))
    | none => c :: subScanF rule fuel (some c) rest

/-- One full `re.sub` pass of a rule over a string. -/
def subRule (rule : Option Char → List Char → Option (Nat × List Char))
    (s : List Char) : List Char := subScanF rule s.length none s

/-- Whether a rule matches at some position of the string. -/
def hasMatchAux (rule : Option Char → List Char → Option (Nat × List Char)) :
    Option Char → List Char → Bool
  | _, [] => false
  | prev, c :: rest => (rule prev (c :: rest)).isSome || hasMatchAux rule (some c) rest

/-- `anonymiser_texte` (src/app.py lines 634-649): the four substitution passes in
source order: names, emails, phone numbers, IBAN-like tokens. -/
def anonymiser_texte (s : List Char) : List Char :=
  subRule rule4At (subRule rule3At (subRule rule2At (subRule rule1At s)))

/-- Whether any of the four redaction rules still matches somewhere in the string. -/
def hasAnyMatch (s : List Char) : Bool :=
  hasMatchAux rule1At none s || hasMatchAux rule2At none s ||
  hasMatchAux rule3At none s || hasMatchAux rule4At none s

/-- `Document` row of the data model (src/app.py lines 66-88), with the fields the
claims are about; timestamps and uuids are abstracted to naturals. -/
structure Doc where
  id : Nat
  title : List Char
  content : List Char
  corrected_content : Option (List Char)
  agent_used : List Char
  user_id : Nat
  status : List Char
  word_count : Nat
  corrections_count : Nat
  processing_time : Nat
  created_at : Nat
  updated_at : Nat
deriving DecidableEq

/-- `CorrectionHistory` row (src/app.py lines 102-113). -/
structure HistRec where
  document_id : Nat
  original_text : List Char
  corrected_text : List Char
deriving DecidableEq

/-- Persistent state: the document table and the correction-history table. -/
structure DBState where
  docs : List Doc
  hist : List HistRec
deriving DecidableEq

/-- Error outcomes of `process_text` before the external call (src/app.py lines
390-394): blank extracted text, unknown agent name. -/
inductive PErr where
  | emptyInput
  | unknownAgent
deriving DecidableEq

/-- The `stats` object of the `process_text` response (src/app.py lines 461-465). -/
structure PStats where
  word_count : Nat
  corrections_count : Nat
  processing_time : Nat
deriving DecidableEq

/-- The success payload of `process_text` (src/app.py lines 458-466). -/
structure PResponse where
  resultat : List Char
  agent_used : List Char
  stats : PStats
deriving DecidableEq

/-- Result of a `process_text` call. -/
inductive PResult where
  | err (e : PErr)
  | ok (r : PResponse)
deriving DecidableEq

/-- Full outcome of one `process_text` call: response, resulting database state, and
whether the external completion service was called. -/
structure POut where
  resp : PResult
  db : DBState
  externalCalled : Bool
deriving DecidableEq

/-- The agent registry (src/app.py lines 343-369): a single entry named jurifix. -/
def AGENTS : List (List Char) := ["jurifix".data]

/-- Update the first document satisfying p (the row returned by `query...first()`),
leaving every other row unchanged. -/
def updateFirst (p : Doc → Bool) (f : Doc → Doc) : List Doc → List Doc
  | [] => []
  | d :: ds => if p d then f d :: ds else d :: updateFirst p f ds

/-- The optional persistence step of `process_text` (src/app.py lines 445-456): when
a document id is supplied, update the first document matching id and owner with the
given field update; otherwise leave the table untouched. -/
def applyUpdate (db : DBState) (uid : Nat) (document_id : Option Nat)
    (upd : Doc → Doc) : DBState :=
  match document_id with
  | none => db
  | some did =>
    { db with docs := updateFirst (fun d => d.id == did && d.user_id == uid) upd db.docs }

/-- `process_text` (src/app.py lines 374-472). `complete` is the external completion
service (an oracle receiving the anonymized text); `extract` is the external HTML
text extraction (BeautifulSoup `get_text`); `now` abstracts the clock. -/
def process_text (complete : List Char → List Char) (extract : List Char → List Char)
    (db : DBState) (uid : Nat) (texte : List Char) (agent_name : List Char)
    (document_id : Option Nat) (now : Nat) : POut :=
  let texte_brut := if isHtmlMode texte then extract texte else texte
  if pyStrip texte_brut = [] then ⟨.err .emptyInput, db, false⟩
  else if agent_name ∉ AGENTS then ⟨.err .unknownAgent, db, false⟩
  else
    let texte_anonyme := anonymiser_texte texte_brut
    let tc0 := postProcessReply (complete texte_anonyme)
    let texte_corrige := if isHtmlMode texte then reassembleHtml tc0 else tc0
    let word_count := pyTokens texte_brut
    let corrections_count :=
      if texte_brut = texte_corrige then 0
      else max 1 (Nat.dist (pyTokens texte_brut) (pyTokens texte_corrige))
    let db' := applyUpdate db uid document_id (fun d =>
      { d with content := texte, corrected_content := some texte_corrige,
               status := "completed".data, word_count := word_count,
               corrections_count := corrections_count,
               processing_time := now, updated_at := now })
    ⟨.ok ⟨texte_corrige, agent_name, ⟨word_count, corrections_count, now⟩⟩, db', true⟩

/-- Result of `save_document` (src/app.py lines 475-519). -/
inductive SResult where
  | notFound
  | saved (document_id : Nat)
deriving DecidableEq

/-- `save_document` (src/app.py lines 475-519): update an existing owned document's
title, content and corrected content, or create a new draft document. `freshId`
models the generated uuid of a new row. -/
def save_document (db : DBState) (uid : Nat) (freshId : Nat) (now : Nat)
    (document_id : Option Nat) (title content corrected_content agent_used : List Char) :
    SResult × DBState :=
  match document_id with
  | some did =>
    match db.docs.find? (fun d => d.id == did && d.user_id == uid) with
    | none => (.notFound, db)
    | some _ =>
      let upd : Doc → Doc := fun d =>
        { d with title := title, content := content,
                 corrected_content := some corrected_content, updated_at := now }
      let docs' := updateFirst (fun d => d.id == did && d.user_id == uid) upd db.docs
      (.saved did, { db with docs := docs' })
  | none =>
    let doc : Doc :=
      { id := freshId, title := title, content := content,
        corrected_content := some corrected_content, agent_used := agent_used,
        user_id := uid, status := "draft".data, word_count := 0, corrections_count := 0,
        processing_time := 0, created_at := now, updated_at := now }
    (.saved freshId, { db with docs := db.docs ++ [doc] })

/-- PUT branch of `handle_document` (src/app.py lines 583-591); `none` means the
field is absent from the request body and keeps its stored value. -/
def put_document (doc : Doc) (title content status : Option (List Char)) (now : Nat) : Doc :=
  { doc with title := title.getD doc.title, content := content.getD doc.content,
             status := status.getD doc.status, updated_at := now }

/-- Plain/HTML dispatch of `process_text` (src/app.py lines 384-388): HTML mode
delegates to the external extraction, otherwise the text is kept as is. -/
def extractPlainText (extract : List Char → List Char) (texte : List Char) : List Char :=
  if isHtmlMode texte then extract texte else texte

/-- Modelled from the spec: the HTML block-text extraction itself is performed by the
external BeautifulSoup library (src/app.py line 386), whose code is not part of this
repository; per spec section 4.1 the block-level text contents are extracted in
document order and joined with a single newline between blocks. An HTML input is
abstracted here as its list of block texts. -/
def extractBlocks (blocks : List (List Char)) : List Char := joinNL blocks

/-! ### Shared lemmas -/

/-- A substitution pass leaves a string unchanged when its rule matches nowhere. -/
theorem subScanF_no_match (rule : Option Char → List Char → Option (Nat × List Char)) :
    ∀ (cs : List Char) (fuel : Nat) (prev : Option Char),
      hasMatchAux rule prev cs = false → subScanF rule fuel prev cs = cs := by
  intro cs
  induction cs with
  | nil =>
    intro fuel prev _
    cases fuel <;> rfl
  | cons c rest ih =>
    intro fuel prev h
    cases fuel with
    | zero => rfl
    | succ fuel =>
      simp only [hasMatchAux, Bool.or_eq_false_iff] at h
      obtain ⟨h1, h2⟩ := h
      cases hr : rule prev (c :: rest) with
      | some v => rw [hr] at h1; simp at h1
      | none =>
        simp only [subScanF, hr]
        rw [ih fuel (some c) h2]

/-- One full substitution pass is the identity when the rule matches nowhere. -/
theorem subRule_no_match (rule : Option Char → List Char → Option (Nat × List Char))
    (s : List Char) (h : hasMatchAux rule none s = false) : subRule rule s = s :=
  subScanF_no_match rule s s.length none h

/-- No row matches the predicate: the update touches nothing. -/
theorem updateFirst_no_match (p : Doc → Bool) (f : Doc → Doc) :
    ∀ l : List Doc, (∀ d ∈ l, p d = false) → updateFirst p f l = l := by
  intro l
  induction l with
  | nil => intro _; rfl
  | cons d ds ih =>
    intro h
    simp only [updateFirst]
    rw [h d (by simp)]
    simp only [Bool.false_eq_true, if_false]
    rw [ih (fun e he => h e (by simp [he]))]

/-- With no id supplied the persistence step is skipped. -/
theorem applyUpdate_none (db : DBState) (uid : Nat) (upd : Doc → Doc) :
    applyUpdate db uid none upd = db := rfl

/-- With an id that matches no owned row, the persistence step changes nothing. -/
theorem applyUpdate_no_match (db : DBState) (uid did : Nat) (upd : Doc → Doc)
    (h : ∀ d ∈ db.docs, (d.id == did && d.user_id == uid) = false) :
    applyUpdate db uid (some did) upd = db := by
  show { db with docs := updateFirst _ upd db.docs } = db
  rw [updateFirst_no_match _ _ _ h]

/-- Every row of an updated table is an old row or the image of an old row. -/
theorem mem_updateFirst (p : Doc → Bool) (f : Doc → Doc) :
    ∀ (l : List Doc) (d' : Doc), d' ∈ updateFirst p f l →
      d' ∈ l ∨ ∃ d, d ∈ l ∧ d' = f d := by
  intro l
  induction l with
  | nil => intro d' h; simp [updateFirst] at h
  | cons d ds ih =>
    intro d' h
    simp only [updateFirst] at h
    by_cases hp : p d = true
    · rw [hp] at h
      simp only [if_true] at h
      rcases List.mem_cons.mp h with h | h
      · exact Or.inr ⟨d, by simp, h⟩
      · exact Or.inl (by simp [h])
    · rw [Bool.not_eq_true] at hp
      rw [hp] at h
      simp only [Bool.false_eq_true, if_false] at h
      rcases List.mem_cons.mp h with h | h
      · exact Or.inl (by simp [h])
      · rcases ih d' h with h2 | ⟨e, he, hd⟩
        · exact Or.inl (by simp [h2])
        · exact Or.inr ⟨e, by simp [he], hd⟩

/-- Splitting a newline-free string on newlines gives back the one segment. -/
theorem splitNL_no_nl : ∀ b : List Char, '\n' ∉ b → splitNL b = [b] := by
  intro b
  induction b with
  | nil => intro _; rfl
  | cons c cs ih =>
    intro h
    rw [List.mem_cons] at h
    push_neg at h
    obtain ⟨h1, h2⟩ := h
    simp only [splitNL]
    rw [if_neg (Ne.symm h1), ih h2]

/-- Splitting after a newline-free first segment peels off exactly that segment. -/
theorem splitNL_append (t : List Char) : ∀ b : List Char, '\n' ∉ b →
    splitNL (b ++ '\n' :: t) = b :: splitNL t := by
  intro b
  induction b with
  | nil =>
    intro _
    simp only [List.nil_append, splitNL, if_pos]
  | cons c cs ih =>
    intro h
    rw [List.mem_cons] at h
    push_neg at h
    obtain ⟨h1, h2⟩ := h
    simp only [List.cons_append, splitNL, List.append_eq]
    rw [if_neg (Ne.symm h1), ih h2]

/-- Splitting on newlines undoes joining with newlines for nonempty lists of
newline-free blocks. -/
theorem splitNL_joinNL : ∀ bs : List (List Char), bs ≠ [] →
    (∀ b ∈ bs, '\n' ∉ b) → splitNL (joinNL bs) = bs := by
  intro bs
  induction bs with
  | nil => intro h _; exact absurd rfl h
  | cons b rest ih =>
    intro _ hall
    cases rest with
    | nil =>
      have hb := splitNL_no_nl b (hall b (by simp))
      simpa [joinNL] using hb
    | cons b2 rest2 =>
      have hj : joinNL (b :: b2 :: rest2) = b ++ '\n' :: joinNL (b2 :: rest2) := rfl
      rw [hj, splitNL_append _ b (hall b (by simp))]
      rw [ih (by simp) (fun x hx => hall x (by simp [hx]))]

/-! ### Claims -/

/-- The corrections-count formula of src/app.py lines 440-443, characterized: zero
exactly on equal texts, otherwise the token-count distance floored at one. -/
theorem corrections_spec (tb tc : List Char) :
    ((if tb = tc then 0 else max 1 (Nat.dist (pyTokens tb) (pyTokens tc))) = 0 ↔ tb = tc) ∧
    (tb ≠ tc →
      (if tb = tc then 0 else max 1 (Nat.dist (pyTokens tb) (pyTokens tc)))
        = max 1 (Nat.dist (pyTokens tb) (pyTokens tc))) := by
  by_cases heq : tb = tc
  · simp [heq]
  · refine ⟨?_, fun _ => by rw [if_neg heq]⟩
    rw [if_neg heq]
    constructor
    · intro h0
      have := Nat.le_max_left 1 (Nat.dist (pyTokens tb) (pyTokens tc))
      omega
    · intro hc
      exact absurd hc heq

/-- Claim C1: for every successful correction run, the reported corrections count is
zero if and only if the extracted plain text equals the returned corrected text
exactly; when they differ it equals the absolute difference of the two
whitespace-token counts, floored at one. The statement quantifies over all inputs,
HTML-structured ones included (in HTML mode the returned text is the reassembled
HTML, and the comparison in the source is against exactly that value). -/
theorem claim1_corrections_count (complete extract : List Char → List Char)
    (db : DBState) (uid : Nat) (texte agent_name : List Char)
    (document_id : Option Nat) (now : Nat) (r : PResponse)
    (h : (process_text complete extract db uid texte agent_name document_id now).resp
          = PResult.ok r) :
    (r.stats.corrections_count = 0 ↔ extractPlainText extract texte = r.resultat) ∧
    (extractPlainText extract texte ≠ r.resultat →
      r.stats.corrections_count =
        max 1 (Nat.dist (pyTokens (extractPlainText extract texte))
          (pyTokens r.resultat))) := by
  unfold extractPlainText
  simp only [process_text] at h
  by_cases h1 : pyStrip (if isHtmlMode texte then extract texte else texte) = []
  · rw [if_pos h1] at h
    exact absurd h (by simp)
  · rw [if_neg h1] at h
    by_cases h2 : agent_name ∉ AGENTS
    · rw [if_pos h2] at h
      exact absurd h (by simp)
    · rw [if_neg h2] at h
      have hr := (PResult.ok.injEq _ _).mp h.symm
      subst hr
      exact corrections_spec _ _

/-- Claim C2 counterexample: a concrete successful correction run that persists (an
existing owned document is updated to completed status) inserts zero
CorrectionHistory rows, not exactly one. -/
theorem claim2_history_counterexample :
    ((process_text (fun _ => "Hello world".data) id
        ⟨[⟨1, "t".data, "c".data, none, "jurifix".data, 7, "draft".data, 0, 0, 0, 0, 0⟩], []⟩
        7 "helo wrld".data "jurifix".data (some 1) 5).db.docs.map
          (fun d => d.status)) = ["completed".data] ∧
    (process_text (fun _ => "Hello world".data) id
        ⟨[⟨1, "t".data, "c".data, none, "jurifix".data, 7, "draft".data, 0, 0, 0, 0, 0⟩], []⟩
        7 "helo wrld".data "jurifix".data (some 1) 5).db.hist.length = 0 :=
  ⟨by decide, by decide⟩

/-- Claim C2 (amended): no correction run ever inserts a CorrectionHistory row — the
history table is left unchanged both by the processing endpoint (even when it
persists a document update) and by the save endpoint. -/
theorem claim2_no_history_insertion :
    (∀ (complete extract : List Char → List Char) (db : DBState) (uid : Nat)
        (texte agent_name : List Char) (document_id : Option Nat) (now : Nat),
      (process_text complete extract db uid texte agent_name document_id now).db.hist
        = db.hist) ∧
    (∀ (db : DBState) (uid freshId now : Nat) (document_id : Option Nat)
        (title content corrected agent_used : List Char),
      (save_document db uid freshId now document_id title content corrected
        agent_used).2.hist = db.hist) := by
  constructor
  · intro complete extract db uid texte agent_name document_id now
    simp only [process_text]
    by_cases h1 : pyStrip (if isHtmlMode texte then extract texte else texte) = []
    · rw [if_pos h1]
    · rw [if_neg h1]
      by_cases h2 : agent_name ∉ AGENTS
      · rw [if_pos h2]
      · rw [if_neg h2]
        cases document_id <;> rfl
  · intro db uid freshId now document_id title content corrected agent_used
    cases document_id with
    | none => rfl
    | some did =>
      simp only [save_document]
      cases db.docs.find? (fun d => d.id == did && d.user_id == uid) <;> rfl

/-- Claim C3 counterexample: saving a new document with a non-empty corrected content
creates a row whose status is draft while its corrected content is non-null,
violating the stated invariant. -/
theorem claim3_invariant_counterexample :
    ((save_document ⟨[], []⟩ 7 42 0 none "t".data "c".data "x".data
        "jurifix".data).2.docs.map (fun d => (d.status, d.corrected_content)))
      = [("draft".data, some "x".data)] ∧
    "draft".data ≠ "completed".data :=
  ⟨by decide, by decide⟩

/-- Claim C3 (amended): the pipeline's update-after-process establishes the invariant
for every document it touches — any document present after a processing call either
was already in the table unchanged or has status completed together with a non-null
corrected content. The save endpoint, by contrast, does not preserve the invariant
(see the counterexample). -/
theorem claim3_pipeline_invariant (complete extract : List Char → List Char)
    (db : DBState) (uid : Nat) (texte agent_name : List Char)
    (document_id : Option Nat) (now : Nat) :
    ∀ d' ∈ (process_text complete extract db uid texte agent_name document_id now).db.docs,
      d' ∈ db.docs ∨ (d'.status = "completed".data ∧ d'.corrected_content ≠ none) := by
  intro d' hd
  simp only [process_text] at hd
  by_cases h1 : pyStrip (if isHtmlMode texte then extract texte else texte) = []
  · rw [if_pos h1] at hd
    exact Or.inl hd
  · rw [if_neg h1] at hd
    by_cases h2 : agent_name ∉ AGENTS
    · rw [if_pos h2] at hd
      exact Or.inl hd
    · rw [if_neg h2] at hd
      cases document_id with
      | none => exact Or.inl hd
      | some did =>
        simp only [applyUpdate] at hd
        rcases mem_updateFirst _ _ _ _ hd with h | ⟨d, hdm, rfl⟩
        · exact Or.inl h
        · exact Or.inr ⟨rfl, by simp⟩

/-- Claim C3 amended-claim witness: the invariant conclusion evaluated on a concrete
persisting run and its concrete updated row. -/
theorem claim3_pipeline_invariant_witness :
    (⟨1, "t".data, "helo wrld".data, some "Hello world".data, "jurifix".data, 7,
        "completed".data, 2, 1, 5, 0, 5⟩ : Doc)
      ∈ (⟨[⟨1, "t".data, "c".data, none, "jurifix".data, 7, "draft".data,
            0, 0, 0, 0, 0⟩], []⟩ : DBState).docs ∨
    ((⟨1, "t".data, "helo wrld".data, some "Hello world".data, "jurifix".data, 7,
        "completed".data, 2, 1, 5, 0, 5⟩ : Doc).status = "completed".data ∧
     (⟨1, "t".data, "helo wrld".data, some "Hello world".data, "jurifix".data, 7,
        "completed".data, 2, 1, 5, 0, 5⟩ : Doc).corrected_content ≠ none) :=
  claim3_pipeline_invariant (fun _ => "Hello world".data) id
    ⟨[⟨1, "t".data, "c".data, none, "jurifix".data, 7, "draft".data, 0, 0, 0, 0, 0⟩], []⟩
    7 "helo wrld".data "jurifix".data (some 1) 5
    ⟨1, "t".data, "helo wrld".data, some "Hello world".data, "jurifix".data, 7,
      "completed".data, 2, 1, 5, 0, 5⟩ (by decide)

/-- Claim C1 witness: the characterization instantiated on a concrete successful run
(plain text `ab cd`, completion reply `ab cde`), where the corrections count is one. -/
theorem claim1_corrections_count_witness :
    ((⟨"ab cde".data, "jurifix".data, ⟨2, 1, 0⟩⟩ : PResponse).stats.corrections_count = 0 ↔
      extractPlainText id "ab cd".data
        = (⟨"ab cde".data, "jurifix".data, ⟨2, 1, 0⟩⟩ : PResponse).resultat) ∧
    (extractPlainText id "ab cd".data
        ≠ (⟨"ab cde".data, "jurifix".data, ⟨2, 1, 0⟩⟩ : PResponse).resultat →
      (⟨"ab cde".data, "jurifix".data, ⟨2, 1, 0⟩⟩ : PResponse).stats.corrections_count =
        max 1 (Nat.dist (pyTokens (extractPlainText id "ab cd".data))
          (pyTokens (⟨"ab cde".data, "jurifix".data, ⟨2, 1, 0⟩⟩ : PResponse).resultat))) :=
  claim1_corrections_count (fun _ => "ab cde".data) id ⟨[], []⟩ 0 "ab cd".data
    "jurifix".data none 0 ⟨"ab cde".data, "jurifix".data, ⟨2, 1, 0⟩⟩ (by decide)

/-- Claim C4 counterexample: the two quote checks are sequential conditionals, not an
if/else — a double-quoted single-quoted reply loses both layers, whereas the claim's
else-branch reading predicts that the inner single quotes are kept. -/
theorem claim4_quote_strip_counterexample :
    postProcessReply "\"'hello'\"".data = "hello".data ∧
    "hello".data ≠ "'hello'".data :=
  ⟨by decide, by decide⟩

/-- Claim C4 (amended): post-processing trims whitespace, then strips one
double-quote layer if the result starts and ends with a double quote, and then —
independently, on that result — strips one single-quote layer if it starts and ends
with a single quote. At most one layer per quote kind is removed (a doubly
double-quoted reply keeps one layer) but a double-quoted single-quoted reply loses
both; a result carrying neither quote kind on both ends is unchanged. -/
theorem claim4_quote_strip_amended :
    (∀ s : List Char, startsEndsWith '"' s = false → startsEndsWith '\'' s = false →
        stripQuotes s = s) ∧
    postProcessReply "  \"hello\"  ".data = "hello".data ∧
    postProcessReply "\"\"hello\"\"".data = "\"hello\"".data ∧
    postProcessReply "'hello'".data = "hello".data ∧
    postProcessReply "\"'hello'\"".data = "hello".data := by
  refine ⟨?_, by decide, by decide, by decide, by decide⟩
  intro s h1 h2
  unfold stripQuotes
  simp only [h1, Bool.false_eq_true, if_false, h2]

/-- Claim C4 amended-claim witness: a reply with no surrounding quotes is returned
unchanged by the quote cleanup. -/
theorem claim4_quote_strip_amended_witness :
    stripQuotes "abc".data = "abc".data :=
  claim4_quote_strip_amended.1 "abc".data (by decide) (by decide)

/-- Claim C5 counterexample: the replacement token written by the source is `[nom]`,
not `[name]` — the input `Madame Durand` (an honorific followed by a capitalized
name) redacts to `Madame [nom]`, which does not contain `[name]`. -/
theorem claim5_name_token_counterexample :
    containsSub "Madame Durand".data "Madame Durand".data = true ∧
    anonymiser_texte "Madame Durand".data = "Madame [nom]".data ∧
    containsSub "[name]".data (anonymiser_texte "Madame Durand".data) = false :=
  ⟨by decide, by decide, by decide⟩

/-- Claim C5 (amended): the redaction replaces the captured name portion with the
fixed token `[nom]` while preserving the honorific — on inputs where the occurrence
of `Madame Durand` starts the honorific match, such as `Madame Durand` itself or
`Bonjour, Madame Durand`, the output contains `Madame [nom]`. -/
theorem claim5_name_token_amended :
    anonymiser_texte "Madame Durand".data = "Madame [nom]".data ∧
    containsSub "Madame [nom]".data
      (anonymiser_texte "Bonjour, Madame Durand".data) = true :=
  ⟨by decide, by decide⟩

/-- Claim C6 counterexample: a whitespace-only block is non-empty but is dropped by
the reassembly filter (two non-empty blocks give one paragraph element), and a block
containing an interior newline is one non-empty block that reassembles into two
paragraph elements. -/
theorem claim6_reassembly_counterexample :
    ((['a'] : List Char) ≠ [] ∧ ([' '] : List Char) ≠ [] ∧
      (reassembleList (extractBlocks [['a'], [' ']])).length = 1) ∧
    ((['a', '\n', 'b'] : List Char) ≠ [] ∧
      (reassembleList (extractBlocks [['a', '\n', 'b']])).length = 2) :=
  ⟨⟨by decide, by decide, by decide⟩, ⟨by decide, by decide⟩⟩

/-- Claim C6 (amended): for every HTML input whose N block texts are newline-free and
non-blank, extracting plain text and reassembling the unchanged corrected text
produces exactly N paragraph elements; and for every input that triggers no HTML
mode, plain-text extraction is the identity function. -/
theorem claim6_reassembly_amended :
    (∀ bs : List (List Char), bs ≠ [] →
        (∀ b ∈ bs, '\n' ∉ b ∧ pyStrip b ≠ []) →
        (reassembleList (extractBlocks bs)).length = bs.length) ∧
    (∀ (extract : List Char → List Char) (texte : List Char),
        isHtmlMode texte = false → extractPlainText extract texte = texte) := by
  constructor
  · intro bs hne hall
    unfold extractBlocks reassembleList
    rw [splitNL_joinNL bs hne (fun b hb => (hall b hb).1)]
    rw [List.filter_eq_self.mpr ?_]
    · simp
    · intro b hb
      have h2 := (hall b hb).2
      cases hps : pyStrip b with
      | nil => exact absurd hps h2
      | cons x xs => simp [hps]
  · intro extract texte h
    unfold extractPlainText
    rw [if_neg (by simp [h])]

/-- Claim C6 amended-claim witness: two newline-free non-blank blocks reassemble into
two paragraph elements, and a plain-text input is extracted unchanged. -/
theorem claim6_reassembly_amended_witness :
    (reassembleList (extractBlocks [['a'], ['b']])).length
        = ([['a'], ['b']] : List (List Char)).length ∧
    extractPlainText id "hi".data = "hi".data :=
  ⟨claim6_reassembly_amended.1 [['a'], ['b']] (by decide) (by decide),
   claim6_reassembly_amended.2 id "hi".data (by decide)⟩

/-- Claim C7: redaction is idempotent on its own output — whenever no rule still
matches the first pass's output, a second pass returns that output unchanged. In
particular no replacement token produced by an earlier rule is re-matched by any
rule on the second pass for such inputs. -/
theorem claim7_redact_idempotent (x : List Char)
    (h : hasAnyMatch (anonymiser_texte x) = false) :
    anonymiser_texte (anonymiser_texte x) = anonymiser_texte x := by
  set s := anonymiser_texte x with hs
  simp only [hasAnyMatch, Bool.or_eq_false_iff] at h
  obtain ⟨⟨⟨h1, h2⟩, h3⟩, h4⟩ := h
  calc anonymiser_texte s
      = subRule rule4At (subRule rule3At (subRule rule2At (subRule rule1At s))) := rfl
    _ = s := by
        rw [subRule_no_match rule1At s h1, subRule_no_match rule2At s h2,
            subRule_no_match rule3At s h3, subRule_no_match rule4At s h4]

/-- Claim C7 witness: a concrete input whose redaction (two names by one rule, one
phone number by another) is a fixed point of all four rules, and on which a second
pass changes nothing. -/
theorem claim7_redact_idempotent_witness :
    hasAnyMatch (anonymiser_texte "Madame Durand 0612345678".data) = false ∧
    anonymiser_texte (anonymiser_texte "Madame Durand 0612345678".data)
      = anonymiser_texte "Madame Durand 0612345678".data :=
  ⟨by decide, claim7_redact_idempotent "Madame Durand 0612345678".data (by decide)⟩

/-- Claim C8: a process call supplying a document id that does not identify a
document owned by the requesting user behaves exactly like a call with no id: no
error, no document row modified, and the same corrected text and statistics. -/
theorem claim8_silent_skip (complete extract : List Char → List Char)
    (db : DBState) (uid : Nat) (texte agent_name : List Char) (did : Nat) (now : Nat)
    (h : ∀ d ∈ db.docs, ¬(d.id = did ∧ d.user_id = uid)) :
    process_text complete extract db uid texte agent_name (some did) now
      = process_text complete extract db uid texte agent_name none now := by
  have hb : ∀ d ∈ db.docs, (d.id == did && d.user_id == uid) = false := by
    intro d hd
    have hnot := h d hd
    rw [Bool.and_eq_false_iff]
    rcases Decidable.em (d.id = did) with hi | hi
    · exact Or.inr (beq_eq_false_iff_ne.mpr (fun hu => hnot ⟨hi, hu⟩))
    · exact Or.inl (beq_eq_false_iff_ne.mpr hi)
  simp only [process_text]
  by_cases h1 : pyStrip (if isHtmlMode texte then extract texte else texte) = []
  · rw [if_pos h1, if_pos h1]
  · rw [if_neg h1, if_neg h1]
    by_cases h2 : agent_name ∉ AGENTS
    · rw [if_pos h2, if_pos h2]
    · rw [if_neg h2, if_neg h2]
      rw [applyUpdate_no_match db uid did _ hb, applyUpdate_none]

/-- Claim C8 witness: skipping a non-owned id (id 9 against a table holding only
document 5 of user 2) on a concrete run equals the id-less run. -/
theorem claim8_silent_skip_witness :
    process_text (fun _ => "x y".data) id
        ⟨[⟨5, "t".data, "c".data, none, "jurifix".data, 2, "draft".data,
            0, 0, 0, 0, 0⟩], []⟩ 2 "abc".data "jurifix".data (some 9) 3
      = process_text (fun _ => "x y".data) id
        ⟨[⟨5, "t".data, "c".data, none, "jurifix".data, 2, "draft".data,
            0, 0, 0, 0, 0⟩], []⟩ 2 "abc".data "jurifix".data none 3 :=
  claim8_silent_skip (fun _ => "x y".data) id
    ⟨[⟨5, "t".data, "c".data, none, "jurifix".data, 2, "draft".data,
        0, 0, 0, 0, 0⟩], []⟩ 2 "abc".data "jurifix".data 9 3 (by decide)

/-- Claim C9 counterexample: with a blank input text and an unknown agent name the
call fails with the empty-input error, not the unknown-agent error — the source
checks the blank text before the agent registry, so the claim's clause "regardless
of the input text supplied" fails. -/
theorem claim9_unknown_agent_counterexample :
    (process_text (fun _ => []) id ⟨[], []⟩ 0 "   ".data "bogus".data none 0).resp
        = PResult.err PErr.emptyInput ∧
    PResult.err PErr.emptyInput ≠ PResult.err PErr.unknownAgent ∧
    "bogus".data ∉ AGENTS :=
  ⟨by decide, by decide, by decide⟩

/-- Claim C9 (amended): a process call with an agent name outside the registry never
calls the external completion service, and — provided the extracted text is not
blank, since the blank-input check runs first — it fails with the unknown-agent
error. -/
theorem claim9_unknown_agent_amended (complete extract : List Char → List Char)
    (db : DBState) (uid : Nat) (texte agent_name : List Char)
    (document_id : Option Nat) (now : Nat) (hagent : agent_name ∉ AGENTS) :
    (process_text complete extract db uid texte agent_name document_id now).externalCalled
        = false ∧
    (pyStrip (extractPlainText extract texte) ≠ [] →
      (process_text complete extract db uid texte agent_name document_id now).resp
        = PResult.err PErr.unknownAgent) := by
  unfold extractPlainText
  simp only [process_text]
  by_cases h1 : pyStrip (if isHtmlMode texte then extract texte else texte) = []
  · rw [if_pos h1]
    exact ⟨rfl, fun hc => absurd h1 hc⟩
  · rw [if_neg h1, if_pos hagent]
    exact ⟨rfl, fun _ => rfl⟩

/-- Claim C9 amended-claim witness: a concrete unknown-agent call with non-blank text
makes no external call and fails with the unknown-agent error. -/
theorem claim9_unknown_agent_amended_witness :
    (process_text (fun _ => []) id ⟨[], []⟩ 0 "abc".data "bogus".data none 0).externalCalled
        = false ∧
    (pyStrip (extractPlainText id "abc".data) ≠ [] →
      (process_text (fun _ => []) id ⟨[], []⟩ 0 "abc".data "bogus".data none 0).resp
        = PResult.err PErr.unknownAgent) :=
  claim9_unknown_agent_amended (fun _ => []) id ⟨[], []⟩ 0 "abc".data "bogus".data
    none 0 (by decide)

/-- Claim C10: the PUT update of a single document can change only title, content,
status and the update timestamp; corrected content, agent, word count, corrections
count, processing time, creation timestamp, owner and id are left unchanged, and a
field absent from the request body keeps its previous value. -/
theorem claim10_put_frame (doc : Doc) (title content status : Option (List Char))
    (now : Nat) :
    (put_document doc title content status now).corrected_content
        = doc.corrected_content ∧
    (put_document doc title content status now).agent_used = doc.agent_used ∧
    (put_document doc title content status now).word_count = doc.word_count ∧
    (put_document doc title content status now).corrections_count
        = doc.corrections_count ∧
    (put_document doc title content status now).processing_time = doc.processing_time ∧
    (put_document doc title content status now).created_at = doc.created_at ∧
    (put_document doc title content status now).user_id = doc.user_id ∧
    (put_document doc title content status now).id = doc.id ∧
    (put_document doc title content status now).updated_at = now ∧
    (title = none → (put_document doc title content status now).title = doc.title) ∧
    (content = none → (put_document doc title content status now).content
        = doc.content) ∧
    (status = none → (put_document doc title content status now).status
        = doc.status) := by
  refine ⟨rfl, rfl, rfl, rfl, rfl, rfl, rfl, rfl, rfl, ?_, ?_, ?_⟩
  · intro h; subst h; rfl
  · intro h; subst h; rfl
  · intro h; subst h; rfl

/-- Claim C10 witness: a concrete PUT with every optional field absent keeps the
stored corrected content and title. -/
theorem claim10_put_frame_witness :
    (put_document ⟨1, "t".data, "c".data, some "x".data, "jurifix".data, 7,
        "completed".data, 3, 2, 1, 0, 0⟩ none none none 9).corrected_content
      = some "x".data ∧
    (put_document ⟨1, "t".data, "c".data, some "x".data, "jurifix".data, 7,
        "completed".data, 3, 2, 1, 0, 0⟩ none none none 9).title = "t".data := by
  have h := claim10_put_frame ⟨1, "t".data, "c".data, some "x".data, "jurifix".data,
    7, "completed".data, 3, 2, 1, 0, 0⟩ none none none 9
  exact ⟨h.1, h.2.2.2.2.2.2.2.2.2.1 rfl⟩
